import Mathlib

set_option maxRecDepth 10000

/-!
Shallow embedding of the MySQL database secrets plugin
(`plugins/database/mysql/mysql.go`): the username-scheme selection, the
statement templating, the transactional batch executor with its
prepare/direct-execution fallback, and the credential lifecycle
operations.  Strings are modelled as lists of characters; the external
collaborators (connection producer, database driver, entropy source) are
an abstract environment of outcome oracles.
-/

/-- Characters treated as whitespace by `strings.TrimSpace` (ASCII part of
the Unicode space class; only these occur in the plugin's templates). -/
def isSpaceChar (c : Char) : Bool :=
  c = ' ' || c = '\t' || c = '\n' || c = '\r' || c = '\x0b' || c = '\x0c'

/-- Go `strings.TrimSpace` on a character list. -/
def trimSpace (s : List Char) : List Char :=
  ((s.dropWhile isSpaceChar).reverse.dropWhile isSpaceChar).reverse

/-- Accumulator-style splitting on the semicolon character. -/
def splitSemiAux : List Char → List Char → List (List Char)
  | [], acc => [acc.reverse]
  | c :: cs, acc =>
    if c = ';' then acc.reverse :: splitSemiAux cs [] else splitSemiAux cs (c :: acc)

/-- Modelled from the spec: `strutil.ParseArbitraryStringSlice` with
separator `";"`, from the repository's `sdk/helper/strutil` package (not
under `src/`).  Per the spec, template splitting is textual and
semicolon-delimited, so the helper is modelled as splitting the input on
the semicolon character. -/
def parseArbitraryStringSlice (s : List Char) : List (List Char) :=
  splitSemiAux s []

/-- Go `strings.Replace` with count `-1`: replace every occurrence of
`pat`, scanning left to right and never rescanning replacement text.
(The Go function treats an empty pattern specially; the plugin only ever
substitutes nonempty placeholder patterns, and an empty pattern is
returned unchanged here.) -/
def replaceAll (pat rep : List Char) : List Char → List Char
  | [] => []
  | c :: cs =>
    if h : pat = [] then c :: replaceAll pat rep cs
    else if pat.isPrefixOf (c :: cs) then
      rep ++ replaceAll pat rep ((c :: cs).drop pat.length)
    else
      c :: replaceAll pat rep cs
termination_by s => s.length
decreasing_by
  all_goals simp only [List.length_drop, List.length_cons]
  all_goals try omega
  all_goals have hp : 0 < pat.length := List.length_pos.mpr h
  all_goals omega

/-- Left curly-brace character, written via its code point. -/
def lbrace : Char := Char.ofNat 123

/-- Right curly-brace character, written via its code point. -/
def rbrace : Char := Char.ofNat 125

/-- Placeholder pattern for a key: two left braces, the key, two right
braces. -/
def placeholder (k : List Char) : List Char :=
  lbrace :: lbrace :: (k ++ [rbrace, rbrace])

/-- Modelled from the spec: `dbutil.QueryHelper` from the repository's
`sdk/database/helper/dbutil` package (not under `src/`).  Per the spec,
substitution is literal string replacement of every occurrence of the
placeholder of every key present in the map.  Go iterates the map in
unspecified order; the model applies the entries in list order, which
agrees with every Go iteration order whenever the substituted values
contain no placeholder braces (the hypothesis under which the theorems
below use it). -/
def queryHelper (q : List Char) (m : List (List Char × List Char)) : List Char :=
  m.foldl (fun acc kv => replaceAll (placeholder kv.1) kv.2 acc) q

/-- Default revocation statement template (`defaultMysqlRevocationStmts`,
mysql.go:19-22), byte for byte including the raw-string whitespace. -/
def defaultMysqlRevocationStmts : List Char :=
  ("\n\t\tREVOKE ALL PRIVILEGES, GRANT OPTION FROM '\x7b\x7bname\x7d\x7d'@'%'; \n\t\tDROP USER '\x7b\x7bname\x7d\x7d'@'%'\n\t").toList

/-- Default password-rotation statement template
(`defaultMySQLRotateCredentialsSQL`, mysql.go:24-26). -/
def defaultMySQLRotateCredentialsSQL : List Char :=
  ("\n\t\tALTER USER '\x7b\x7busername\x7d\x7d'@'%' IDENTIFIED BY '\x7b\x7bpassword\x7d\x7d';\n\t").toList

/-- Plugin type name (mysql.go:28). -/
def mySQLTypeName : List Char := ("mysql").toList

/-- Modern display-name budget (mysql.go:42). -/
def DisplayNameLen : Nat := 13

/-- Legacy display-name budget (mysql.go:43). -/
def LegacyDisplayNameLen : Nat := 5

/-- Modern metadata (role-name) budget (mysql.go:44). -/
def MetadataLen : Nat := 10

/-- Legacy metadata (role-name) budget (mysql.go:45). -/
def LegacyMetadataLen : Nat := 4

/-- Modern total username budget (mysql.go:46). -/
def UsernameLen : Nat := 32

/-- Legacy total username budget (mysql.go:47). -/
def LegacyUsernameLen : Nat := 16

/-- Driver or library error value: a MySQL driver error carrying its
numeric code (`stdmysql.MySQLError`), or a plain error string. -/
inductive GoErr
  | mysqlErr (number : Nat) (message : List Char)
  | errStr (message : List Char)
deriving DecidableEq, Repr

/-- Error-code test performed at mysql.go:283: the error is a
`stdmysql.MySQLError` whose `Number` field is 1295 ("this command is not
supported in the prepared statement protocol yet"). -/
def isErr1295 : GoErr → Bool
  | .mysqlErr n _ => n == 1295
  | .errStr _ => false

/-- Rendered error text, used when `UpdateUser` wraps a rotation failure. -/
def GoErr.text : GoErr → List Char
  | .mysqlErr n msg => ("Error ").toList ++ (Nat.repr n).toList ++ (": ").toList ++ msg
  | .errStr msg => msg

/-- Outcome of an operation: a normal value, a returned error, or the
runtime panic raised by dereferencing a nil prepared-statement handle. -/
inductive GoResult (α : Type)
  | ok (a : α)
  | err (e : GoErr)
  | panicNilDeref
deriving DecidableEq, Repr

/-- Observable events of one coordinator operation, in program order:
lock acquisition and release of the instance mutex, the connection
request, transaction begin, each successful in-transaction statement
execution, the successful commit, and the deferred rollback call. -/
inductive Event
  | lock
  | unlock
  | connect
  | beginTx
  | execStmt (q : List Char)
  | commit
  | rollback
deriving DecidableEq, Repr

/-- Abstract environment giving the behaviour of the external
collaborators: `genUsername` models the sdk username generator
(display name, display budget, role name, role budget, total budget);
`producerInit` models the connection producer accepting or rejecting a
configuration; `connErr`/`beginErr`/`commitErr` are the outcomes of
connection acquisition, `BeginTx` and `Commit`; `prepare`, `stmtExec` and
`execDirect` give per query text the outcomes of `tx.PrepareContext`,
prepared-statement `ExecContext` and direct `tx.ExecContext`; a `none`
entry means the call succeeds.  `rollbackErr` is the outcome of
`tx.Rollback`, which the source always discards. -/
structure DBEnv where
  genUsername : List Char → Nat → List Char → Nat → Nat → Except (List Char) (List Char)
  producerInit : List (List Char × List Char) → Bool → Option GoErr
  connErr : Option GoErr
  beginErr : Option GoErr
  prepare : List Char → Option GoErr
  stmtExec : List Char → Option GoErr
  execDirect : List Char → Option GoErr
  commitErr : Option GoErr
  rollbackErr : Option GoErr

/-- Statement fragments of one template as produced by the loops at
mysql.go:181-186 and mysql.go:266-271: split on semicolons, trim each
fragment, and skip the empty ones. -/
def renderFragments (stmt : List Char) : List (List Char) :=
  ((parseArbitraryStringSlice stmt).map trimSpace).filter (fun q => !q.isEmpty)

/-- Statement rendering as performed inside the batch executor loop
(mysql.go:266-273): the non-empty trimmed fragments with the substitution
map applied. -/
def renderStatement (stmt : List Char) (queryMap : List (List Char × List Char)) : List (List Char) :=
  (renderFragments stmt).map (fun q => queryHelper q queryMap)

/-- Ordered rendered queries of a whole statement batch. -/
def renderedQueries (statements : List (List Char)) (queryMap : List (List Char × List Char)) : List (List Char) :=
  statements.flatMap (fun s => renderStatement s queryMap)

/-- Abort behaviour of the executor loop body: `retErr` models a `return`
of the error; `panicked` models the `stmt.Close()` call on the nil
prepared-statement handle that the source performs when a 1295-fallback
direct execution fails (mysql.go:286), carrying the execution error the
code meant to return. -/
inductive Abort
  | retErr (e : GoErr)
  | panicked (e : GoErr)
deriving DecidableEq, Repr

/-- Executor loop over the rendered queries (mysql.go:266-300): prepare
each query; on MySQL error 1295 fall back to direct execution (where the
source then calls `Close` on the nil handle if that execution fails); on
any other prepare error, or an execution error, abort with the error.
Returns the successful execution events and the abort, if any. -/
def runPrepared (env : DBEnv) : List (List Char) → List Event × Option Abort
  | [] => ([], none)
  | q :: qs =>
    match env.prepare q with
    | some e =>
      if isErr1295 e then
        match env.execDirect q with
        | some e2 => ([], some (.panicked e2))
        | none =>
          let r := runPrepared env qs
          (.execStmt q :: r.1, r.2)
      else ([], some (.retErr e))
    | none =>
      match env.stmtExec q with
      | some e => ([], some (.retErr e))
      | none =>
        let r := runPrepared env qs
        (.execStmt q :: r.1, r.2)

/-- Transactional batch executor `executePreparedStatementsWithMap`
(mysql.go:246-307): take the instance lock, get the connection, begin a
transaction, render and run every statement, and commit only when all of
them succeed; the deferred rollback call runs on every exit path after a
successful begin and its error is discarded. -/
def executePreparedStatementsWithMap (env : DBEnv) (statements : List (List Char)) (queryMap : List (List Char × List Char)) : GoResult Unit × List Event :=
  match env.connErr with
  | some e => (.err e, [.lock, .connect, .unlock])
  | none =>
    match env.beginErr with
    | some e => (.err e, [.lock, .connect, .beginTx, .unlock])
    | none =>
      let r := runPrepared env (renderedQueries statements queryMap)
      match r.2 with
      | some (.retErr e) =>
        (.err e, [Event.lock, .connect, .beginTx] ++ r.1 ++ [.rollback, .unlock])
      | some (.panicked _) =>
        (.panicNilDeref, [Event.lock, .connect, .beginTx] ++ r.1 ++ [.rollback, .unlock])
      | none =>
        match env.commitErr with
        | some e =>
          (.err e, [Event.lock, .connect, .beginTx] ++ r.1 ++ [.rollback, .unlock])
        | none =>
          (.ok (), [Event.lock, .connect, .beginTx] ++ r.1 ++ [.commit, .rollback, .unlock])

/-- Plugin instance (mysql.go:52-55): the naming scheme is fixed by the
legacy flag at construction and never changes afterwards. -/
structure MySQL where
  legacy : Bool
deriving DecidableEq, Repr

/-- Constructor `new` (mysql.go:68-75) restricted to the instance state
the lifecycle operations read. -/
def MySQL.mkNew (legacy : Bool) : MySQL := ⟨legacy⟩

/-- Length budgets selected in `generateUsername` (mysql.go:133-143):
display-name budget, metadata (role-name) budget, total maximum. -/
def usernameBudgets (m : MySQL) : Nat × Nat × Nat :=
  if m.legacy then (LegacyDisplayNameLen, LegacyMetadataLen, LegacyUsernameLen)
  else (DisplayNameLen, MetadataLen, UsernameLen)

/-- Error wrapping applied by `errwrap.Wrapf("error generating username:
...", err)` at mysql.go:151. -/
def genWrap (r : Except (List Char) (List Char)) : Except (List Char) (List Char) :=
  match r with
  | .error e => .error (("error generating username: ").toList ++ e)
  | .ok u => .ok u

structure UsernameConfig where
  displayName : List Char
  roleName : List Char
deriving DecidableEq, Repr

/-- Timestamp with an explicit numeric timezone offset, standing for the
Go `time.Time` value carried by a new-user request. -/
structure Timestamp where
  year : Nat
  month : Nat
  day : Nat
  hour : Nat
  minute : Nat
  second : Nat
  tzNeg : Bool
  tzHours : Nat
  tzMinutes : Nat
deriving DecidableEq, Repr

/-- Decimal rendering of a number, zero-padded on the left to a width. -/
def padZero (w n : Nat) : List Char :=
  List.replicate (w - (Nat.repr n).toList.length) '0' ++ (Nat.repr n).toList

/-- Modelled from the spec: Go `time.Format` with the layout
`2006-01-02 15:04:05-0700` used at mysql.go:113 (the Go standard library
is outside `src/`): zero-padded year-month-day, a space, colon-separated
hour, minute and second, then the sign and the four-digit timezone
offset. -/
def formatExpiration (t : Timestamp) : List Char :=
  padZero 4 t.year ++ ('-' :: padZero 2 t.month) ++ ('-' :: padZero 2 t.day) ++
    (' ' :: padZero 2 t.hour) ++ (':' :: padZero 2 t.minute) ++ (':' :: padZero 2 t.second) ++
    ((if t.tzNeg then '-' else '+') :: (padZero 2 t.tzHours ++ padZero 2 t.tzMinutes))

structure NewUserRequest where
  usernameConfig : UsernameConfig
  statements : List (List Char)
  password : List Char
  expiration : Timestamp
deriving DecidableEq, Repr

/-- Modelled from the spec: `dbutil.ErrEmptyCreationStatement` from the
repository sdk (not under `src/`), the validation error returned for an
empty creation statement list. -/
def errEmptyCreationStatement : GoErr := .errStr ("empty creation statement").toList

/-- Username generation (mysql.go:132-155): select the scheme budgets
from the instance's legacy flag and invoke the sdk generator (abstract in
the environment); a generator error is wrapped with a fixed prefix. -/
def generateUsername (m : MySQL) (env : DBEnv) (req : NewUserRequest) : Except (List Char) (List Char) :=
  genWrap (env.genUsername req.usernameConfig.displayName (usernameBudgets m).1
    req.usernameConfig.roleName (usernameBudgets m).2.1 (usernameBudgets m).2.2)

/-- Substitution map built by `NewUser` (mysql.go:115-120). -/
def newUserQueryMap (username password expirationStr : List Char) : List (List Char × List Char) :=
  [(("name").toList, username), (("username").toList, username),
   (("password").toList, password), (("expiration").toList, expirationStr)]

/-- `NewUser` (mysql.go:101-130): reject an empty statement list before
anything else, generate a username, build the substitution map and run
the batch executor; on success return the generated username. -/
def NewUser (m : MySQL) (env : DBEnv) (req : NewUserRequest) : GoResult (List Char) × List Event :=
  if req.statements.isEmpty then (.err errEmptyCreationStatement, [])
  else
    match generateUsername m env req with
    | .error e => (.err (.errStr e), [])
    | .ok username =>
      let r := executePreparedStatementsWithMap env req.statements
        (newUserQueryMap username req.password (formatExpiration req.expiration))
      match r.1 with
      | .ok _ => (.ok username, r.2)
      | .err e => (.err e, r.2)
      | .panicNilDeref => (.panicNilDeref, r.2)

/-- Substitution map built by `changeUserPassword` (mysql.go:231-235). -/
def rotateQueryMap (username password : List Char) : List (List Char × List Char) :=
  [(("name").toList, username), (("username").toList, username),
   (("password").toList, password)]

/-- `changeUserPassword` (mysql.go:222-241): reject an empty username or
password before anything else, fall back to the default rotation
statement when none are supplied, and run the batch executor. -/
def changeUserPassword (env : DBEnv) (username password : List Char) (rotateStatements : List (List Char)) : GoResult Unit × List Event :=
  if username.isEmpty || password.isEmpty then
    (.err (.errStr ("must provide both username and password").toList), [])
  else
    executePreparedStatementsWithMap env
      (if rotateStatements.isEmpty then [defaultMySQLRotateCredentialsSQL] else rotateStatements)
      (rotateQueryMap username password)

structure ChangePassword where
  newPassword : List Char
  statements : List (List Char)
deriving DecidableEq, Repr

structure UpdateUserRequest where
  username : List Char
  password : Option ChangePassword
  expiration : Option Timestamp
deriving DecidableEq, Repr

/-- `UpdateUser` (mysql.go:205-220): reject a request that changes
nothing, delegate a password change to `changeUserPassword` wrapping its
error, and treat an expiration-only change as a no-op success. -/
def UpdateUser (env : DBEnv) (req : UpdateUserRequest) : GoResult Unit × List Event :=
  if req.password.isNone && req.expiration.isNone then
    (.err (.errStr ("no change requested").toList), [])
  else
    match req.password with
    | some cp =>
      let r := changeUserPassword env req.username cp.newPassword cp.statements
      match r.1 with
      | .ok _ => (.ok (), r.2)
      | .err e => (.err (.errStr (("failed to change password: ").toList ++ e.text)), r.2)
      | .panicNilDeref => (.panicNilDeref, r.2)
    | none => (.ok (), [])

structure DeleteUserRequest where
  username : List Char
  statements : List (List Char)
deriving DecidableEq, Repr

/-- Revocation-statement rendering in `DeleteUser` (mysql.go:181-192):
the non-empty trimmed fragments, with the request username substituted
for the name placeholder and then for the username placeholder by plain
text replacement. -/
def renderRevocation (stmt username : List Char) : List (List Char) :=
  (renderFragments stmt).map
    (fun q => replaceAll (placeholder ("username").toList) username
      (replaceAll (placeholder ("name").toList) username q))

/-- Direct execution loop of `DeleteUser` (mysql.go:181-198): every
rendered query goes through `tx.ExecContext`, never the prepare path. -/
def runDirect (env : DBEnv) : List (List Char) → List Event × Option GoErr
  | [] => ([], none)
  | q :: qs =>
    match env.execDirect q with
    | some e => ([], some e)
    | none =>
      let r := runDirect env qs
      (.execStmt q :: r.1, r.2)

/-- `DeleteUser` (mysql.go:157-203): lock, connect, default the
revocation statements when none are supplied, begin a transaction,
execute every rendered statement directly, and commit; the deferred
rollback runs on every exit path after a successful begin. -/
def DeleteUser (env : DBEnv) (req : DeleteUserRequest) : GoResult Unit × List Event :=
  match env.connErr with
  | some e => (.err e, [.lock, .connect, .unlock])
  | none =>
    match env.beginErr with
    | some e => (.err e, [.lock, .connect, .beginTx, .unlock])
    | none =>
      let r := runDirect env
        ((if req.statements.isEmpty then [defaultMysqlRevocationStmts] else req.statements).flatMap
          (fun s => renderRevocation s req.username))
      match r.2 with
      | some e => (.err e, [Event.lock, .connect, .beginTx] ++ r.1 ++ [.rollback, .unlock])
      | none =>
        match env.commitErr with
        | some e => (.err e, [Event.lock, .connect, .beginTx] ++ r.1 ++ [.rollback, .unlock])
        | none => (.ok (), [Event.lock, .connect, .beginTx] ++ r.1 ++ [.commit, .rollback, .unlock])

structure InitializeRequest where
  config : List (List Char × List Char)
  verifyConnection : Bool
deriving DecidableEq, Repr

structure InitializeResponse where
  config : List (List Char × List Char)
deriving DecidableEq, Repr

/-- `Initialize` (mysql.go:90-99): forward to the connection producer
(`mySQLConnectionProducer.Initialize`, a file of this repository that is
not under `src/`, abstract in the environment); on failure return an
empty response together with the error, on success echo the request
configuration back unchanged. -/
def initializeOp (env : DBEnv) (req : InitializeRequest) : InitializeResponse × Option GoErr :=
  match env.producerInit req.config req.verifyConnection with
  | some e => (⟨[]⟩, some e)
  | none => (⟨req.config⟩, none)

/-- Queries successfully executed inside the transaction, read off an
event list. -/
def executedQueries (evs : List Event) : List (List Char) :=
  evs.filterMap (fun e => match e with | Event.execStmt q => some q | _ => none)

/-- Character that is whitespace or a semicolon. -/
def wsOrSemi (c : Char) : Bool := isSpaceChar c || c = ';'

/-- Success of one rendered query in the executor loop: preparation
succeeds and the prepared execution succeeds, or preparation fails with
MySQL error 1295 and the direct execution succeeds. -/
def querySucceeds (env : DBEnv) (q : List Char) : Bool :=
  match env.prepare q with
  | some e => isErr1295 e && (env.execDirect q).isNone
  | none => (env.stmtExec q).isNone

/-- Abort produced by the executor loop at a failing query. -/
def abortOf (env : DBEnv) (q : List Char) : Abort :=
  match env.prepare q with
  | some e =>
    if isErr1295 e then .panicked ((env.execDirect q).getD (.errStr []))
    else .retErr e
  | none => .retErr ((env.stmtExec q).getD (.errStr []))

/-- Error carried by the abort at a failing query. -/
def queryError (env : DBEnv) (q : List Char) : GoErr :=
  match abortOf env q with
  | .retErr e => e
  | .panicked e => e

/-- The failing query hits the nil-handle close: preparation fails with
MySQL error 1295 and the direct execution also fails. -/
def panicsAt (env : DBEnv) (q : List Char) : Bool :=
  match env.prepare q with
  | some e => isErr1295 e && (env.execDirect q).isSome
  | none => false

/-- Bracketing discipline of an operation's event list: either the
operation touched nothing, or its first event is the lock acquisition,
its last event is the unlock, and the lock is neither re-taken nor
released in between — so every connection and transaction event happens
while the instance lock is held. -/
def Bracketed (evs : List Event) : Prop :=
  evs = [] ∨ ∃ mid, evs = Event.lock :: mid ++ [Event.unlock] ∧
    Event.lock ∉ mid ∧ Event.unlock ∉ mid

/-- One step of the instance mutex: a lock step requires the mutex to be
free and takes ownership, an unlock step requires ownership by that
thread, and every other event leaves the owner unchanged. -/
def mutexStep (o : Option Bool) (t : Bool) (e : Event) : Option (Option Bool) :=
  match e with
  | Event.lock => match o with | none => some (some t) | some _ => none
  | Event.unlock => match o with | some t2 => if t2 == t then some none else none | none => none
  | _ => some o

/-- Validity of a two-thread schedule under the mutex semantics, starting
from a given owner. -/
def mutexRun (o : Option Bool) : List (Bool × Event) → Bool
  | [] => true
  | (t, e) :: rest =>
    match mutexStep o t e with
    | none => false
    | some o2 => mutexRun o2 rest

/-- Events of one thread in a schedule. -/
def projThread (t : Bool) : List (Bool × Event) → List Event
  | [] => []
  | (t2, e) :: rest => if t2 == t then e :: projThread t rest else projThread t rest

/-- One thread's block runs entirely before the other's: the schedule
splits into a first part whose events all belong to one thread and a
second part whose events all belong to the other. -/
def Separated (sch : List (Bool × Event)) : Prop :=
  ∃ x y, sch = x ++ y ∧
    ((∀ p ∈ x, p.1 = true) ∧ (∀ p ∈ y, p.1 = false) ∨
     (∀ p ∈ x, p.1 = false) ∧ (∀ p ∈ y, p.1 = true))

/-- First default revocation statement with a username substituted. -/
def revokeStmtFor (u : List Char) : List Char :=
  ("REVOKE ALL PRIVILEGES, GRANT OPTION FROM '").toList ++ u ++ ("'@'%'").toList

/-- Second default revocation statement with a username substituted. -/
def dropStmtFor (u : List Char) : List Char :=
  ("DROP USER '").toList ++ u ++ ("'@'%'").toList

/-- Default rotation statement with a username and password substituted. -/
def alterStmtFor (u p : List Char) : List Char :=
  ("ALTER USER '").toList ++ u ++ ("'@'%' IDENTIFIED BY '").toList ++ p ++ ("'").toList

/-- Environment in which every external call succeeds. -/
def envAllOk : DBEnv where
  genUsername := fun _ _ _ _ _ => .ok ("u1").toList
  producerInit := fun _ _ => none
  connErr := none
  beginErr := none
  prepare := fun _ => none
  stmtExec := fun _ => none
  execDirect := fun _ => none
  commitErr := none
  rollbackErr := none

/-- Environment in which every preparation fails with MySQL error 1295
and every direct execution fails too: the executor's fallback branch then
closes the nil prepared-statement handle. -/
def env1295 : DBEnv where
  genUsername := fun _ _ _ _ _ => .ok ("u1").toList
  producerInit := fun _ _ => none
  connErr := none
  beginErr := none
  prepare := fun _ => some (.mysqlErr 1295 ("statement type unsupported").toList)
  stmtExec := fun _ => none
  execDirect := fun _ => some (.errStr ("syntax error").toList)
  commitErr := none
  rollbackErr := none

/-- Occurrence test: the pattern appears as a contiguous run somewhere in
the string. -/
def containsPat (pat : List Char) : List Char → Bool
  | [] => pat.isEmpty
  | c :: cs => pat.isPrefixOf (c :: cs) || containsPat pat cs

/-- Lists of space characters trim to the empty list. -/
theorem trimSpace_eq_nil (s : List Char) (h : ∀ c ∈ s, isSpaceChar c = true) :
    trimSpace s = [] := by
  unfold trimSpace
  rw [List.dropWhile_eq_nil_iff.mpr h]
  simp

/-- Splitting a whitespace/semicolon string (with a whitespace
accumulator) yields only whitespace fragments. -/
theorem splitSemiAux_spaces (s : List Char) :
    ∀ acc, (∀ c ∈ s, wsOrSemi c = true) → (∀ c ∈ acc, isSpaceChar c = true) →
      ∀ piece ∈ splitSemiAux s acc, ∀ c ∈ piece, isSpaceChar c = true := by
  induction s with
  | nil =>
    intro acc _ hacc piece hpiece c hc
    simp only [splitSemiAux, List.mem_singleton] at hpiece
    subst hpiece
    exact hacc c (List.mem_reverse.mp hc)
  | cons a as ih =>
    intro acc hs hacc piece hpiece c hc
    by_cases ha : a = ';'
    · rw [splitSemiAux, if_pos ha] at hpiece
      rcases List.mem_cons.mp hpiece with h1 | h2
      · subst h1
        exact hacc c (List.mem_reverse.mp hc)
      · exact ih [] (fun x hx => hs x (List.mem_cons_of_mem a hx)) (by simp) piece h2 c hc
    · rw [splitSemiAux, if_neg ha] at hpiece
      refine ih (a :: acc) (fun x hx => hs x (List.mem_cons_of_mem a hx)) ?_ piece hpiece c hc
      intro x hx
      rcases List.mem_cons.mp hx with h1 | h2
      · subst h1
        have hws := hs x (List.mem_cons_self x as)
        simp only [wsOrSemi, Bool.or_eq_true] at hws
        rcases hws with h | h
        · exact h
        · exact absurd (by simpa using h) ha
      · exact hacc x h2

/-- Rendering a whitespace/semicolon-only template yields no fragments. -/
theorem renderFragments_ws (t : List Char) (h : ∀ c ∈ t, wsOrSemi c = true) :
    renderFragments t = [] := by
  unfold renderFragments parseArbitraryStringSlice
  rw [List.filter_eq_nil_iff]
  intro q hq
  rcases List.mem_map.mp hq with ⟨piece, hpiece, htrim⟩
  have hall := splitSemiAux_spaces t [] h (by simp) piece hpiece
  rw [← htrim, trimSpace_eq_nil piece hall]
  simp

/-- A list is a Boolean prefix of itself followed by anything. -/
theorem isPrefixOf_append_self (p b : List Char) : p.isPrefixOf (p ++ b) = true := by
  induction p with
  | nil => simp [List.isPrefixOf]
  | cons a as ih => simp [List.isPrefixOf, ih]

/-- Dropping a left factor's length drops exactly that factor. -/
theorem drop_len_append (p b : List Char) : (p ++ b).drop p.length = b := by
  induction p with
  | nil => simp
  | cons a as ih => simpa using ih

/-- Replacement leaves a string without any occurrence of the pattern
unchanged. -/
theorem replaceAll_not_contains (pat rep s : List Char)
    (h : containsPat pat s = false) : replaceAll pat rep s = s := by
  induction s with
  | nil => simp [replaceAll]
  | cons c cs ih =>
    rw [containsPat, Bool.or_eq_false_iff] at h
    rw [replaceAll]
    by_cases hpat : pat = []
    · subst hpat
      simp only [List.isPrefixOf] at h
      exact absurd h.1 (by simp)
    · rw [dif_neg hpat, if_neg (by simp [h.1]), ih h.2]

/-- A pattern starting with a left brace does not occur in a brace-free
string. -/
theorem not_contains_of_no_lbrace (p' s : List Char) (h : lbrace ∉ s) :
    containsPat (lbrace :: p') s = false := by
  induction s with
  | nil => rfl
  | cons c cs ih =>
    rw [containsPat, Bool.or_eq_false_iff]
    constructor
    · have hc : lbrace ≠ c := fun he => h (he ▸ List.mem_cons_self c cs)
      simp [List.isPrefixOf, hc]
    · exact ih (fun hm => h (List.mem_cons_of_mem c hm))

/-- Replacement of a brace-headed pattern in a string that starts with a
brace-free part, then the pattern, then a remainder: the pattern is
replaced right there and replacement continues in the remainder only. -/
theorem replaceAll_split (p' rep a b : List Char) (ha : lbrace ∉ a) :
    replaceAll (lbrace :: p') rep (a ++ (lbrace :: p') ++ b) =
      a ++ rep ++ replaceAll (lbrace :: p') rep b := by
  induction a with
  | nil =>
    simp only [List.nil_append]
    rw [List.cons_append, replaceAll, dif_neg (by simp)]
    rw [if_pos (by rw [← List.cons_append]; exact isPrefixOf_append_self _ b)]
    rw [← List.cons_append, drop_len_append]
  | cons c cs ih =>
    have hc : lbrace ≠ c := fun he => ha (he ▸ List.mem_cons_self c cs)
    rw [List.cons_append, List.cons_append, replaceAll, dif_neg (by simp)]
    rw [if_neg (by simp [List.isPrefixOf, hc])]
    rw [ih (fun hm => ha (List.mem_cons_of_mem c hm))]
    simp

/-- Step form of the executor loop: a succeeding query is executed and
the loop continues; a failing query stops the loop with its abort. -/
theorem runPrepared_cons (env : DBEnv) (q : List Char) (qs : List (List Char)) :
    runPrepared env (q :: qs) =
      if querySucceeds env q then
        (Event.execStmt q :: (runPrepared env qs).1, (runPrepared env qs).2)
      else ([], some (abortOf env q)) := by
  rw [runPrepared]
  unfold querySucceeds abortOf
  rcases hp : env.prepare q with _ | err
  · rcases hs : env.stmtExec q with _ | err2 <;> simp [hs]
  · rcases hd : env.execDirect q with _ | err2 <;>
      by_cases h95 : isErr1295 err = true <;> simp [hd, h95]

/-- Every event emitted by the executor loop is a statement execution. -/
theorem runPrepared_mem_exec (env : DBEnv) (qs : List (List Char)) :
    ∀ e ∈ (runPrepared env qs).1, ∃ q, e = Event.execStmt q := by
  induction qs with
  | nil => simp [runPrepared]
  | cons q qs ih =>
    intro e he
    rw [runPrepared_cons] at he
    by_cases hq : querySucceeds env q = true
    · rw [if_pos hq] at he
      rcases List.mem_cons.mp he with h1 | h2
      · exact ⟨q, h1⟩
      · exact ih e h2
    · rw [if_neg hq] at he
      simp at he

/-- The executor loop reaches the end exactly when every query succeeds. -/
theorem runPrepared_none_iff (env : DBEnv) (qs : List (List Char)) :
    (runPrepared env qs).2 = none ↔ ∀ q ∈ qs, querySucceeds env q = true := by
  induction qs with
  | nil => simp [runPrepared]
  | cons q qs ih =>
    rw [runPrepared_cons]
    by_cases hq : querySucceeds env q = true
    · rw [if_pos hq]
      simp only [List.mem_cons]
      constructor
      · intro h x hx
        rcases hx with h1 | h2
        · subst h1; exact hq
        · exact ih.mp h x h2
      · intro h
        exact ih.mpr (fun x hx => h x (Or.inr hx))
    · rw [if_neg hq]
      simp only [List.mem_cons]
      constructor
      · intro h; simp at h
      · intro h
        exact absurd (h q (Or.inl rfl)) hq

/-- When every query succeeds the executor loop executes all of them in
order and reports no abort. -/
theorem runPrepared_all_ok (env : DBEnv) (qs : List (List Char))
    (h : ∀ q ∈ qs, querySucceeds env q = true) :
    runPrepared env qs = (qs.map Event.execStmt, none) := by
  induction qs with
  | nil => simp [runPrepared]
  | cons q qs ih =>
    rw [runPrepared_cons, if_pos (h q (List.mem_cons_self q qs)),
      ih (fun x hx => h x (List.mem_cons_of_mem q hx))]
    simp

/-- At the first failing query the executor loop stops: it has executed
exactly the preceding queries and reports that query's abort. -/
theorem runPrepared_first_fail (env : DBEnv) (pre : List (List Char))
    (q : List Char) (rest : List (List Char))
    (hpre : ∀ x ∈ pre, querySucceeds env x = true)
    (hq : querySucceeds env q = false) :
    runPrepared env (pre ++ q :: rest) = (pre.map Event.execStmt, some (abortOf env q)) := by
  induction pre with
  | nil =>
    simp only [List.nil_append, List.map_nil]
    rw [runPrepared_cons, if_neg (by simp [hq])]
  | cons x pre ih =>
    rw [List.cons_append, runPrepared_cons,
      if_pos (hpre x (List.mem_cons_self x pre)),
      ih (fun y hy => hpre y (List.mem_cons_of_mem x hy))]
    simp

/-- Step form of the delete loop. -/
theorem runDirect_cons (env : DBEnv) (q : List Char) (qs : List (List Char)) :
    runDirect env (q :: qs) =
      if env.execDirect q = none then
        (Event.execStmt q :: (runDirect env qs).1, (runDirect env qs).2)
      else ([], some ((env.execDirect q).getD (.errStr []))) := by
  rw [runDirect]
  rcases hd : env.execDirect q with _ | err <;> simp [hd]

/-- Every event emitted by the delete loop is a statement execution. -/
theorem runDirect_mem_exec (env : DBEnv) (qs : List (List Char)) :
    ∀ e ∈ (runDirect env qs).1, ∃ q, e = Event.execStmt q := by
  induction qs with
  | nil => simp [runDirect]
  | cons q qs ih =>
    intro e he
    rw [runDirect_cons] at he
    by_cases hq : env.execDirect q = none
    · rw [if_pos hq] at he
      rcases List.mem_cons.mp he with h1 | h2
      · exact ⟨q, h1⟩
      · exact ih e h2
    · rw [if_neg hq] at he
      simp at he

/-- The delete loop reaches the end exactly when every direct execution
succeeds. -/
theorem runDirect_none_iff (env : DBEnv) (qs : List (List Char)) :
    (runDirect env qs).2 = none ↔ ∀ q ∈ qs, env.execDirect q = none := by
  induction qs with
  | nil => simp [runDirect]
  | cons q qs ih =>
    rw [runDirect_cons]
    by_cases hq : env.execDirect q = none
    · rw [if_pos hq]
      simp only [List.mem_cons]
      constructor
      · intro h x hx
        rcases hx with h1 | h2
        · subst h1; exact hq
        · exact ih.mp h x h2
      · intro h
        exact ih.mpr (fun x hx => h x (Or.inr hx))
    · rw [if_neg hq]
      simp only [List.mem_cons]
      constructor
      · intro h; simp at h
      · intro h
        exact absurd (h q (Or.inl rfl)) hq

/-- When every direct execution succeeds the delete loop executes all the
queries in order. -/
theorem runDirect_all_ok (env : DBEnv) (qs : List (List Char))
    (h : ∀ q ∈ qs, env.execDirect q = none) :
    runDirect env qs = (qs.map Event.execStmt, none) := by
  induction qs with
  | nil => simp [runDirect]
  | cons q qs ih =>
    rw [runDirect_cons, if_pos (h q (List.mem_cons_self q qs)),
      ih (fun x hx => h x (List.mem_cons_of_mem q hx))]
    simp

/-- The executor loop only reads the prepare and execution oracles. -/
theorem runPrepared_congr (env env2 : DBEnv) (qs : List (List Char))
    (hp : env.prepare = env2.prepare) (hs : env.stmtExec = env2.stmtExec)
    (hd : env.execDirect = env2.execDirect) :
    runPrepared env qs = runPrepared env2 qs := by
  induction qs with
  | nil => rfl
  | cons q qs ih =>
    rw [runPrepared, runPrepared, hp, hs, hd, ih]

/-- The delete loop only reads the direct-execution oracle. -/
theorem runDirect_congr (env env2 : DBEnv) (qs : List (List Char))
    (hd : env.execDirect = env2.execDirect) :
    runDirect env qs = runDirect env2 qs := by
  induction qs with
  | nil => rfl
  | cons q qs ih =>
    rw [runDirect, runDirect, hd, ih]

/-- Executor outcome when every rendered query succeeds and the commit
succeeds: commit confirmed, all statements executed in order. -/
theorem executor_all_ok (env : DBEnv) (stmts : List (List Char))
    (qm : List (List Char × List Char))
    (hconn : env.connErr = none) (hbegin : env.beginErr = none)
    (hall : ∀ q ∈ renderedQueries stmts qm, querySucceeds env q = true)
    (hcommit : env.commitErr = none) :
    executePreparedStatementsWithMap env stmts qm =
      (.ok (), [Event.lock, .connect, .beginTx] ++
        (renderedQueries stmts qm).map Event.execStmt ++ [.commit, .rollback, .unlock]) := by
  simp only [executePreparedStatementsWithMap, hconn, hbegin,
    runPrepared_all_ok env _ hall, hcommit]

/-- Executor outcome when every rendered query succeeds but the commit
fails: the commit error is returned and no commit event is emitted. -/
theorem executor_commit_fail (env : DBEnv) (stmts : List (List Char))
    (qm : List (List Char × List Char)) (e : GoErr)
    (hconn : env.connErr = none) (hbegin : env.beginErr = none)
    (hall : ∀ q ∈ renderedQueries stmts qm, querySucceeds env q = true)
    (hcommit : env.commitErr = some e) :
    executePreparedStatementsWithMap env stmts qm =
      (.err e, [Event.lock, .connect, .beginTx] ++
        (renderedQueries stmts qm).map Event.execStmt ++ [.rollback, .unlock]) := by
  simp only [executePreparedStatementsWithMap, hconn, hbegin,
    runPrepared_all_ok env _ hall, hcommit]

/-- Executor outcome at a non-panicking abort: the abort's error is
returned with the already-executed statements recorded. -/
theorem executor_abort_ret (env : DBEnv) (stmts : List (List Char))
    (qm : List (List Char × List Char)) (e : GoErr)
    (hconn : env.connErr = none) (hbegin : env.beginErr = none)
    (hab : (runPrepared env (renderedQueries stmts qm)).2 = some (.retErr e)) :
    executePreparedStatementsWithMap env stmts qm =
      (.err e, [Event.lock, .connect, .beginTx] ++
        (runPrepared env (renderedQueries stmts qm)).1 ++ [.rollback, .unlock]) := by
  simp only [executePreparedStatementsWithMap, hconn, hbegin, hab]

/-- Executor outcome at a panicking abort: the nil-handle dereference. -/
theorem executor_abort_panic (env : DBEnv) (stmts : List (List Char))
    (qm : List (List Char × List Char)) (e : GoErr)
    (hconn : env.connErr = none) (hbegin : env.beginErr = none)
    (hab : (runPrepared env (renderedQueries stmts qm)).2 = some (.panicked e)) :
    executePreparedStatementsWithMap env stmts qm =
      (.panicNilDeref, [Event.lock, .connect, .beginTx] ++
        (runPrepared env (renderedQueries stmts qm)).1 ++ [.rollback, .unlock]) := by
  simp only [executePreparedStatementsWithMap, hconn, hbegin, hab]

/-- C1: the claim says that when preparation fails with MySQL error 1295
and the direct execution also fails, the executor returns that execution
error with the transaction rolled back and performs no invalid access to
the unprepared statement handle.  The code instead calls `Close` on the
nil handle returned by the failed prepare (mysql.go:286): evaluating the
embedded executor in an environment where every prepare fails with error
1295 and every direct execution fails shows the run ends in the
nil-handle dereference panic rather than returning the execution error
(the deferred rollback still fires, the transaction is not committed). -/
theorem c1_nil_handle_close_panic :
    executePreparedStatementsWithMap env1295 [("GRANT ALL ON *.* TO 'x'").toList] [] =
      (.panicNilDeref, [Event.lock, .connect, .beginTx, .rollback, .unlock]) ∧
    (executePreparedStatementsWithMap env1295 [("GRANT ALL ON *.* TO 'x'").toList] []).1 ≠
      .err (.errStr ("syntax error").toList) := by
  exact ⟨by decide, by decide⟩

/-- C3: each invalid request is rejected with its validation error before
any lock acquisition, connection acquisition, or database interaction
(the returned event list is empty): create with an empty statement list,
rotation with an empty username or password, and an update that requests
no change. -/
theorem c3_validation_before_db (m : MySQL) (env : DBEnv) (req : NewUserRequest)
    (u p : List Char) (rs : List (List Char)) (ureq : UpdateUserRequest) :
    (req.statements = [] → NewUser m env req = (.err errEmptyCreationStatement, [])) ∧
    (u = [] ∨ p = [] →
      changeUserPassword env u p rs =
        (.err (.errStr ("must provide both username and password").toList), [])) ∧
    (ureq.password = none → ureq.expiration = none →
      UpdateUser env ureq = (.err (.errStr ("no change requested").toList), [])) := by
  refine ⟨?_, ?_, ?_⟩
  · intro h
    simp [NewUser, h]
  · intro h
    rcases h with h | h <;> subst h <;> simp [changeUserPassword]
  · intro h1 h2
    simp [UpdateUser, h1, h2]

/-- Witness for C3 at concrete invalid requests. -/
theorem c3_validation_before_db_witness :
    NewUser (MySQL.mkNew false) envAllOk
        ⟨⟨("d").toList, ("r").toList⟩, [], ("pw").toList, ⟨2024, 1, 1, 0, 0, 0, false, 0, 0⟩⟩ =
      (.err errEmptyCreationStatement, []) ∧
    changeUserPassword envAllOk [] ("pw").toList [] =
      (.err (.errStr ("must provide both username and password").toList), []) ∧
    UpdateUser envAllOk ⟨("bob").toList, none, none⟩ =
      (.err (.errStr ("no change requested").toList), []) := by
  obtain ⟨h1, h2, h3⟩ := c3_validation_before_db (MySQL.mkNew false) envAllOk
    ⟨⟨("d").toList, ("r").toList⟩, [], ("pw").toList, ⟨2024, 1, 1, 0, 0, 0, false, 0, 0⟩⟩
    [] (("pw").toList) [] ⟨("bob").toList, none, none⟩
  exact ⟨h1 rfl, h2 (Or.inl rfl), h3 rfl rfl⟩

/-- C4: username generation uses exactly the length budgets of the scheme
fixed at construction — legacy instances pass display budget 5, metadata
budget 4 and total 16 to the generator, modern instances pass 13, 10 and
32 — and every instance's budgets are exactly one of the two scheme
triples, so the schemes are never mixed within one instance. -/
theorem c4_scheme_budgets (env : DBEnv) (req : NewUserRequest) (m : MySQL) :
    (m.legacy = true → generateUsername m env req =
      genWrap (env.genUsername req.usernameConfig.displayName 5
        req.usernameConfig.roleName 4 16)) ∧
    (m.legacy = false → generateUsername m env req =
      genWrap (env.genUsername req.usernameConfig.displayName 13
        req.usernameConfig.roleName 10 32)) ∧
    (usernameBudgets m = (5, 4, 16) ∨ usernameBudgets m = (13, 10, 32)) ∧
    (LegacyDisplayNameLen, LegacyMetadataLen, LegacyUsernameLen) = (5, 4, 16) ∧
    (DisplayNameLen, MetadataLen, UsernameLen) = (13, 10, 32) ∧
    (MySQL.mkNew true).legacy = true ∧ (MySQL.mkNew false).legacy = false := by
  refine ⟨?_, ?_, ?_, by decide, by decide, rfl, rfl⟩
  · intro h
    simp [generateUsername, usernameBudgets, h, LegacyDisplayNameLen, LegacyMetadataLen,
      LegacyUsernameLen]
  · intro h
    simp [generateUsername, usernameBudgets, h, DisplayNameLen, MetadataLen, UsernameLen]
  · rcases hm : m.legacy with _ | _
    · right
      simp [usernameBudgets, hm, DisplayNameLen, MetadataLen, UsernameLen]
    · left
      simp [usernameBudgets, hm, LegacyDisplayNameLen, LegacyMetadataLen, LegacyUsernameLen]

/-- Witness for C4 at a concrete legacy and a concrete modern instance. -/
theorem c4_scheme_budgets_witness :
    generateUsername (MySQL.mkNew true) envAllOk
        ⟨⟨("token").toList, ("myrole").toList⟩, [("SELECT 1").toList], ("pw").toList,
          ⟨2024, 1, 1, 0, 0, 0, false, 0, 0⟩⟩ =
      genWrap (envAllOk.genUsername ("token").toList 5 ("myrole").toList 4 16) ∧
    generateUsername (MySQL.mkNew false) envAllOk
        ⟨⟨("token").toList, ("myrole").toList⟩, [("SELECT 1").toList], ("pw").toList,
          ⟨2024, 1, 1, 0, 0, 0, false, 0, 0⟩⟩ =
      genWrap (envAllOk.genUsername ("token").toList 13 ("myrole").toList 10 32) := by
  constructor
  · exact (c4_scheme_budgets envAllOk
      ⟨⟨("token").toList, ("myrole").toList⟩, [("SELECT 1").toList], ("pw").toList,
        ⟨2024, 1, 1, 0, 0, 0, false, 0, 0⟩⟩ (MySQL.mkNew true)).1 rfl
  · exact (c4_scheme_budgets envAllOk
      ⟨⟨("token").toList, ("myrole").toList⟩, [("SELECT 1").toList], ("pw").toList,
        ⟨2024, 1, 1, 0, 0, 0, false, 0, 0⟩⟩ (MySQL.mkNew false)).2.1 rfl

/-- C10: when the connection producer accepts the configuration the
response echoes the request configuration unchanged; when it rejects it
an empty response is returned together with the error. -/
theorem c10_init_config_frame (env : DBEnv) (req : InitializeRequest) :
    (env.producerInit req.config req.verifyConnection = none →
      initializeOp env req = (⟨req.config⟩, none)) ∧
    ∀ e, env.producerInit req.config req.verifyConnection = some e →
      initializeOp env req = (⟨[]⟩, some e) := by
  constructor
  · intro h
    simp [initializeOp, h]
  · intro e h
    simp [initializeOp, h]

/-- Witness for C10 at a concrete accepting and a concrete rejecting
producer. -/
theorem c10_init_config_frame_witness :
    initializeOp envAllOk ⟨[(("connection_url").toList, ("u:p@tcp(h)/").toList)], true⟩ =
      (⟨[(("connection_url").toList, ("u:p@tcp(h)/").toList)]⟩, none) ∧
    initializeOp
        { envAllOk with producerInit := fun _ _ => some (.errStr ("bad config").toList) }
        ⟨[(("connection_url").toList, ("u:p@tcp(h)/").toList)], true⟩ =
      (⟨[]⟩, some (.errStr ("bad config").toList)) := by
  constructor
  · exact (c10_init_config_frame envAllOk
      ⟨[(("connection_url").toList, ("u:p@tcp(h)/").toList)], true⟩).1 rfl
  · exact (c10_init_config_frame
      { envAllOk with producerInit := fun _ _ => some (.errStr ("bad config").toList) }
      ⟨[(("connection_url").toList, ("u:p@tcp(h)/").toList)], true⟩).2
      (.errStr ("bad config").toList) rfl

/-- C8: a template that is empty or consists solely of whitespace and
semicolons renders to no statements — in the batch executor's rendering
and in the delete path's rendering — and consequently no statement is
ever executed for it by either path. -/
theorem c8_ws_template_renders_nothing (t : List Char)
    (h : ∀ c ∈ t, wsOrSemi c = true)
    (qm : List (List Char × List Char)) (u : List Char) (env : DBEnv) :
    renderStatement t qm = [] ∧
    renderRevocation t u = [] ∧
    executedQueries (executePreparedStatementsWithMap env [t] qm).2 = [] ∧
    executedQueries (DeleteUser env ⟨u, [t]⟩).2 = [] := by
  have hfrag : renderFragments t = [] := renderFragments_ws t h
  have h1 : renderStatement t qm = [] := by rw [renderStatement, hfrag]; rfl
  have h2 : renderRevocation t u = [] := by rw [renderRevocation, hfrag]; rfl
  refine ⟨h1, h2, ?_, ?_⟩
  · have hr : renderedQueries [t] qm = [] := by
      simp [renderedQueries, h1]
    rcases hconn : env.connErr with _ | e
    · rcases hbegin : env.beginErr with _ | e
      · rcases hcommit : env.commitErr with _ | e <;>
          simp [executePreparedStatementsWithMap, hconn, hbegin, hcommit, hr,
            runPrepared, executedQueries]
      · simp [executePreparedStatementsWithMap, hconn, hbegin, executedQueries]
    · simp [executePreparedStatementsWithMap, hconn, executedQueries]
  · rcases hconn : env.connErr with _ | e
    · rcases hbegin : env.beginErr with _ | e
      · rcases hcommit : env.commitErr with _ | e <;>
          simp [DeleteUser, hconn, hbegin, hcommit, h2, runDirect, executedQueries]
      · simp [DeleteUser, hconn, hbegin, executedQueries]
    · simp [DeleteUser, hconn, executedQueries]

/-- Witness for C8 at a concrete whitespace/semicolon template. -/
theorem c8_ws_template_renders_nothing_witness :
    renderStatement ("  ;\t; \n ").toList [] = [] ∧
    renderRevocation ("  ;\t; \n ").toList ("bob").toList = [] ∧
    executedQueries (executePreparedStatementsWithMap envAllOk [("  ;\t; \n ").toList] []).2 = [] ∧
    executedQueries (DeleteUser envAllOk ⟨("bob").toList, [("  ;\t; \n ").toList]⟩).2 = [] :=
  c8_ws_template_renders_nothing ("  ;\t; \n ").toList (by decide) [] ("bob").toList envAllOk

/-- C7: a successful `NewUser` call builds the substitution map with
exactly the keys name and username (both the generated identifier),
password (the request's password) and expiration (the request's
expiration formatted by the fixed layout), runs the batch executor with
that map on the request's statements, and returns the generated
username. -/
theorem c7_newuser_substitution_map (m : MySQL) (env : DBEnv) (req : NewUserRequest)
    (u resp : List Char) (evs : List Event)
    (hgen : generateUsername m env req = .ok u)
    (hres : NewUser m env req = (.ok resp, evs)) :
    resp = u ∧
    newUserQueryMap u req.password (formatExpiration req.expiration) =
      [(("name").toList, u), (("username").toList, u),
       (("password").toList, req.password),
       (("expiration").toList, formatExpiration req.expiration)] ∧
    (executePreparedStatementsWithMap env req.statements
        (newUserQueryMap u req.password (formatExpiration req.expiration))).1 = .ok () ∧
    evs = (executePreparedStatementsWithMap env req.statements
        (newUserQueryMap u req.password (formatExpiration req.expiration))).2 := by
  by_cases hst : req.statements.isEmpty = true
  · rw [NewUser, if_pos hst] at hres
    exact absurd (congrArg Prod.fst hres) (by simp)
  · simp only [NewUser, if_neg hst, hgen] at hres
    rcases hr1 : (executePreparedStatementsWithMap env req.statements
        (newUserQueryMap u req.password (formatExpiration req.expiration))).1 with a | e | _
    · rw [hr1] at hres
      simp only [Prod.mk.injEq, GoResult.ok.injEq] at hres
      exact ⟨hres.1.symm, rfl, by cases a; rfl, hres.2.symm⟩
    · rw [hr1] at hres
      simp at hres
    · rw [hr1] at hres
      simp at hres

/-- Witness for C7 at a concrete succeeding request. -/
theorem c7_newuser_substitution_map_witness :
    ("u1").toList = ("u1").toList ∧
    newUserQueryMap ("u1").toList ("pw").toList
        (formatExpiration ⟨2024, 3, 5, 7, 8, 9, false, 7, 0⟩) =
      [(("name").toList, ("u1").toList), (("username").toList, ("u1").toList),
       (("password").toList, ("pw").toList),
       (("expiration").toList, formatExpiration ⟨2024, 3, 5, 7, 8, 9, false, 7, 0⟩)] ∧
    (executePreparedStatementsWithMap envAllOk [("   ").toList]
        (newUserQueryMap ("u1").toList ("pw").toList
          (formatExpiration ⟨2024, 3, 5, 7, 8, 9, false, 7, 0⟩))).1 = .ok () ∧
    formatExpiration ⟨2024, 3, 5, 7, 8, 9, false, 7, 0⟩ = ("2024-03-05 07:08:09+0700").toList := by
  have h := c7_newuser_substitution_map (MySQL.mkNew false) envAllOk
    ⟨⟨("d").toList, ("r").toList⟩, [("   ").toList], ("pw").toList,
      ⟨2024, 3, 5, 7, 8, 9, false, 7, 0⟩⟩
    ("u1").toList ("u1").toList
    [Event.lock, .connect, .beginTx, .commit, .rollback, .unlock]
    rfl (by decide)
  exact ⟨rfl, h.2.1, h.2.2.1, by decide⟩

/-- Membership in a three-part concatenation. -/
theorem not_mem_append3 {c : Char} {a u b : List Char}
    (ha : c ∉ a) (hu : c ∉ u) (hb : c ∉ b) : c ∉ a ++ u ++ b := by
  intro hm
  rcases List.mem_append.mp hm with h | h
  · rcases List.mem_append.mp h with h2 | h2
    · exact ha h2
    · exact hu h2
  · exact hb h

/-- Replacement of a brace-headed pattern occurring exactly once: the
string decomposes as a brace-free part, the pattern, and a remainder with
no further occurrence, and replacement substitutes exactly there. -/
theorem replaceAll_single (p' rep a b s : List Char)
    (hs : s = a ++ (lbrace :: p') ++ b)
    (ha : lbrace ∉ a) (hb : containsPat (lbrace :: p') b = false) :
    replaceAll (lbrace :: p') rep s = a ++ rep ++ b := by
  subst hs
  rw [replaceAll_split p' rep a b ha, replaceAll_not_contains _ rep b hb]

/-- C6: password rotation with an empty rotation-template list falls back
to the built-in default template, whose rendering substitutes the exact
supplied username and new password through the substitution map with the
keys name, username and password, and the call runs through the
transactional batch executor on that default.  (The brace-freeness
hypotheses on the substituted values make the model's fixed substitution
order agree with every Go map iteration order.) -/
theorem c6_default_rotation (env : DBEnv) (u p : List Char)
    (hu : u ≠ []) (hp : p ≠ []) (hbu : lbrace ∉ u) (hbp : lbrace ∉ p) :
    renderStatement defaultMySQLRotateCredentialsSQL (rotateQueryMap u p) =
      [alterStmtFor u p] ∧
    renderedQueries [defaultMySQLRotateCredentialsSQL] (rotateQueryMap u p) =
      [alterStmtFor u p] ∧
    changeUserPassword env u p [] =
      executePreparedStatementsWithMap env [defaultMySQLRotateCredentialsSQL]
        (rotateQueryMap u p) := by
  have hfrag : renderFragments defaultMySQLRotateCredentialsSQL =
      [("ALTER USER '\x7b\x7busername\x7d\x7d'@'%' IDENTIFIED BY '\x7b\x7bpassword\x7d\x7d'").toList] := by
    decide
  have h1 : replaceAll (placeholder ("name").toList) u
      (("ALTER USER '\x7b\x7busername\x7d\x7d'@'%' IDENTIFIED BY '\x7b\x7bpassword\x7d\x7d'").toList) =
      ("ALTER USER '\x7b\x7busername\x7d\x7d'@'%' IDENTIFIED BY '\x7b\x7bpassword\x7d\x7d'").toList :=
    replaceAll_not_contains _ u _ (by decide)
  have h2 : replaceAll (placeholder ("username").toList) u
      (("ALTER USER '\x7b\x7busername\x7d\x7d'@'%' IDENTIFIED BY '\x7b\x7bpassword\x7d\x7d'").toList) =
      ("ALTER USER '").toList ++ u ++ ("'@'%' IDENTIFIED BY '\x7b\x7bpassword\x7d\x7d'").toList :=
    replaceAll_single (lbrace :: (("username").toList ++ [rbrace, rbrace])) u
      (("ALTER USER '").toList) (("'@'%' IDENTIFIED BY '\x7b\x7bpassword\x7d\x7d'").toList) _
      (by decide) (by decide) (by decide)
  have h3 : replaceAll (placeholder ("password").toList) p
      (("ALTER USER '").toList ++ u ++ ("'@'%' IDENTIFIED BY '\x7b\x7bpassword\x7d\x7d'").toList) =
      alterStmtFor u p := by
    refine replaceAll_single (lbrace :: (("password").toList ++ [rbrace, rbrace])) p
      (("ALTER USER '").toList ++ u ++ ("'@'%' IDENTIFIED BY '").toList) (("'").toList) _
      ?_ (not_mem_append3 (by decide) hbu (by decide)) (by decide)
    have hB : ("'@'%' IDENTIFIED BY '\x7b\x7bpassword\x7d\x7d'").toList =
        ("'@'%' IDENTIFIED BY '").toList ++
          (lbrace :: lbrace :: (("password").toList ++ [rbrace, rbrace])) ++ ("'").toList := by
      decide
    rw [hB]
    simp [List.append_assoc]
  have key : queryHelper
      (("ALTER USER '\x7b\x7busername\x7d\x7d'@'%' IDENTIFIED BY '\x7b\x7bpassword\x7d\x7d'").toList)
      (rotateQueryMap u p) = alterStmtFor u p := by
    show replaceAll (placeholder ("password").toList) p
      (replaceAll (placeholder ("username").toList) u
        (replaceAll (placeholder ("name").toList) u
          (("ALTER USER '\x7b\x7busername\x7d\x7d'@'%' IDENTIFIED BY '\x7b\x7bpassword\x7d\x7d'").toList))) =
      alterStmtFor u p
    rw [h1, h2, h3]
  have hrs : renderStatement defaultMySQLRotateCredentialsSQL (rotateQueryMap u p) =
      [alterStmtFor u p] := by
    rw [renderStatement, hfrag, List.map_cons, List.map_nil, key]
  have hu' : u.isEmpty = false := by
    cases u
    · exact absurd rfl hu
    · rfl
  have hp' : p.isEmpty = false := by
    cases p
    · exact absurd rfl hp
    · rfl
  refine ⟨hrs, ?_, ?_⟩
  · simp [renderedQueries, hrs]
  · rw [changeUserPassword]
    simp [hu', hp']

/-- Witness for C6 at a concrete username and password. -/
theorem c6_default_rotation_witness :
    renderStatement defaultMySQLRotateCredentialsSQL
        (rotateQueryMap ("bob").toList ("s3cret").toList) =
      [alterStmtFor ("bob").toList ("s3cret").toList] ∧
    alterStmtFor ("bob").toList ("s3cret").toList =
      ("ALTER USER 'bob'@'%' IDENTIFIED BY 's3cret'").toList ∧
    changeUserPassword envAllOk ("bob").toList ("s3cret").toList [] =
      executePreparedStatementsWithMap envAllOk [defaultMySQLRotateCredentialsSQL]
        (rotateQueryMap ("bob").toList ("s3cret").toList) := by
  have h := c6_default_rotation envAllOk ("bob").toList ("s3cret").toList
    (by decide) (by decide) (by decide) (by decide)
  exact ⟨h.1, by decide, h.2.2⟩

/-- The executor loop never emits a commit event. -/
theorem commit_not_mem_runPrepared (env : DBEnv) (qs : List (List Char)) :
    Event.commit ∉ (runPrepared env qs).1 := by
  intro hm
  obtain ⟨q, hq⟩ := runPrepared_mem_exec env qs _ hm
  exact Event.noConfusion hq

/-- The executor loop never emits a lock event. -/
theorem lock_not_mem_runPrepared (env : DBEnv) (qs : List (List Char)) :
    Event.lock ∉ (runPrepared env qs).1 := by
  intro hm
  obtain ⟨q, hq⟩ := runPrepared_mem_exec env qs _ hm
  exact Event.noConfusion hq

/-- The executor loop never emits an unlock event. -/
theorem unlock_not_mem_runPrepared (env : DBEnv) (qs : List (List Char)) :
    Event.unlock ∉ (runPrepared env qs).1 := by
  intro hm
  obtain ⟨q, hq⟩ := runPrepared_mem_exec env qs _ hm
  exact Event.noConfusion hq

/-- The delete loop never emits a commit event. -/
theorem commit_not_mem_runDirect (env : DBEnv) (qs : List (List Char)) :
    Event.commit ∉ (runDirect env qs).1 := by
  intro hm
  obtain ⟨q, hq⟩ := runDirect_mem_exec env qs _ hm
  exact Event.noConfusion hq

/-- The delete loop never emits a lock event. -/
theorem lock_not_mem_runDirect (env : DBEnv) (qs : List (List Char)) :
    Event.lock ∉ (runDirect env qs).1 := by
  intro hm
  obtain ⟨q, hq⟩ := runDirect_mem_exec env qs _ hm
  exact Event.noConfusion hq

/-- The delete loop never emits an unlock event. -/
theorem unlock_not_mem_runDirect (env : DBEnv) (qs : List (List Char)) :
    Event.unlock ∉ (runDirect env qs).1 := by
  intro hm
  obtain ⟨q, hq⟩ := runDirect_mem_exec env qs _ hm
  exact Event.noConfusion hq

/-- `DeleteUser` never reads the prepare or prepared-execution oracles:
every revocation statement is executed directly. -/
theorem DeleteUser_prepare_irrel (env : DBEnv) (f g : List Char → Option GoErr)
    (req : DeleteUserRequest) :
    DeleteUser { env with prepare := f, stmtExec := g } req = DeleteUser env req := by
  simp only [DeleteUser]
  rw [runDirect_congr { env with prepare := f, stmtExec := g } env _ rfl]

/-- `DeleteUser` commits exactly when every rendered revocation statement
executes successfully and the commit call succeeds. -/
theorem DeleteUser_commit_iff (env : DBEnv) (req : DeleteUserRequest)
    (hconn : env.connErr = none) (hbegin : env.beginErr = none) :
    Event.commit ∈ (DeleteUser env req).2 ↔
      ((∀ q ∈ (if req.statements.isEmpty then [defaultMysqlRevocationStmts]
          else req.statements).flatMap (fun s => renderRevocation s req.username),
        env.execDirect q = none) ∧ env.commitErr = none) := by
  rcases hab : (runDirect env
      ((if req.statements.isEmpty then [defaultMysqlRevocationStmts]
        else req.statements).flatMap (fun s => renderRevocation s req.username))).2 with _ | e
  · rcases hcommit : env.commitErr with _ | e
    · simp only [DeleteUser, hconn, hbegin, hab, hcommit]
      constructor
      · intro _
        exact ⟨(runDirect_none_iff env _).mp hab, by trivial⟩
      · intro _
        simp
    · simp only [DeleteUser, hconn, hbegin, hab, hcommit]
      constructor
      · intro hm
        simp only [List.mem_append, List.mem_cons] at hm
        rcases hm with (h | h) | h
        · simp at h
        · exact absurd h (commit_not_mem_runDirect env _)
        · simp at h
      · intro ⟨_, hc⟩
        exact absurd hc (by simp)
  · simp only [DeleteUser, hconn, hbegin, hab]
    constructor
    · intro hm
      simp only [List.mem_append, List.mem_cons] at hm
      rcases hm with (h | h) | h
      · simp at h
      · exact absurd h (commit_not_mem_runDirect env _)
      · simp at h
    · intro ⟨hall, _⟩
      rw [(runDirect_none_iff env _).mpr hall] at hab
      exact Option.noConfusion hab

/-- C5: deleting a user with an empty revocation-template list issues
exactly the two default statements, the revoke followed by the drop, with
the request's username substituted by plain replacement of the name and
username placeholders; the statements are executed directly against the
transaction (the prepare oracles are never consulted), and the
transaction commits exactly when both statements and the commit succeed. -/
theorem c5_default_revocation (env : DBEnv) (u : List Char) (hbu : lbrace ∉ u)
    (hconn : env.connErr = none) (hbegin : env.beginErr = none) :
    renderRevocation defaultMysqlRevocationStmts u = [revokeStmtFor u, dropStmtFor u] ∧
    (∀ f g, DeleteUser { env with prepare := f, stmtExec := g } ⟨u, []⟩ =
      DeleteUser env ⟨u, []⟩) ∧
    (env.execDirect (revokeStmtFor u) = none → env.execDirect (dropStmtFor u) = none →
      env.commitErr = none →
      DeleteUser env ⟨u, []⟩ = (.ok (), [Event.lock, .connect, .beginTx,
        .execStmt (revokeStmtFor u), .execStmt (dropStmtFor u),
        .commit, .rollback, .unlock])) ∧
    (Event.commit ∈ (DeleteUser env ⟨u, []⟩).2 ↔
      (env.execDirect (revokeStmtFor u) = none ∧ env.execDirect (dropStmtFor u) = none ∧
        env.commitErr = none)) := by
  have hfrag : renderFragments defaultMysqlRevocationStmts =
      [("REVOKE ALL PRIVILEGES, GRANT OPTION FROM '\x7b\x7bname\x7d\x7d'@'%'").toList,
       ("DROP USER '\x7b\x7bname\x7d\x7d'@'%'").toList] := by decide
  have h1 : replaceAll (placeholder ("name").toList) u
      (("REVOKE ALL PRIVILEGES, GRANT OPTION FROM '\x7b\x7bname\x7d\x7d'@'%'").toList) =
      revokeStmtFor u :=
    replaceAll_single (lbrace :: (("name").toList ++ [rbrace, rbrace])) u
      (("REVOKE ALL PRIVILEGES, GRANT OPTION FROM '").toList) (("'@'%'").toList) _
      (by decide) (by decide) (by decide)
  have h2 : replaceAll (placeholder ("username").toList) u (revokeStmtFor u) =
      revokeStmtFor u :=
    replaceAll_not_contains _ u _
      (not_contains_of_no_lbrace _ _ (not_mem_append3 (by decide) hbu (by decide)))
  have h3 : replaceAll (placeholder ("name").toList) u
      (("DROP USER '\x7b\x7bname\x7d\x7d'@'%'").toList) = dropStmtFor u :=
    replaceAll_single (lbrace :: (("name").toList ++ [rbrace, rbrace])) u
      (("DROP USER '").toList) (("'@'%'").toList) _
      (by decide) (by decide) (by decide)
  have h4 : replaceAll (placeholder ("username").toList) u (dropStmtFor u) =
      dropStmtFor u :=
    replaceAll_not_contains _ u _
      (not_contains_of_no_lbrace _ _ (not_mem_append3 (by decide) hbu (by decide)))
  have hrr : renderRevocation defaultMysqlRevocationStmts u =
      [revokeStmtFor u, dropStmtFor u] := by
    rw [renderRevocation, hfrag, List.map_cons, List.map_cons, List.map_nil, h1, h2, h3, h4]
  have hqs : ((if (⟨u, []⟩ : DeleteUserRequest).statements.isEmpty
      then [defaultMysqlRevocationStmts] else (⟨u, []⟩ : DeleteUserRequest).statements).flatMap
        (fun s => renderRevocation s (⟨u, []⟩ : DeleteUserRequest).username)) =
      [revokeStmtFor u, dropStmtFor u] := by
    simp [hrr]
  refine ⟨hrr, fun f g => DeleteUser_prepare_irrel env f g ⟨u, []⟩, ?_, ?_⟩
  · intro hd1 hd2 hcommit
    have hall : ∀ q ∈ [revokeStmtFor u, dropStmtFor u], env.execDirect q = none := by
      intro q hq
      rcases List.mem_cons.mp hq with h | h
      · subst h; exact hd1
      · rcases List.mem_cons.mp h with h' | h'
        · subst h'; exact hd2
        · simp at h'
    simp only [DeleteUser, hconn, hbegin, hqs, runDirect_all_ok env _ hall, hcommit]
    simp
  · rw [DeleteUser_commit_iff env ⟨u, []⟩ hconn hbegin, hqs]
    simp [and_assoc]

/-- Witness for C5 at a concrete username. -/
theorem c5_default_revocation_witness :
    renderRevocation defaultMysqlRevocationStmts ("bob").toList =
      [revokeStmtFor ("bob").toList, dropStmtFor ("bob").toList] ∧
    revokeStmtFor ("bob").toList =
      ("REVOKE ALL PRIVILEGES, GRANT OPTION FROM 'bob'@'%'").toList ∧
    dropStmtFor ("bob").toList = ("DROP USER 'bob'@'%'").toList ∧
    DeleteUser envAllOk ⟨("bob").toList, []⟩ =
      (.ok (), [Event.lock, .connect, .beginTx,
        .execStmt (revokeStmtFor ("bob").toList), .execStmt (dropStmtFor ("bob").toList),
        .commit, .rollback, .unlock]) := by
  have h := c5_default_revocation envAllOk ("bob").toList (by decide) rfl rfl
  exact ⟨h.1, by decide, by decide, h.2.2.1 rfl rfl rfl⟩

/-- A failing query that does not hit the nil-handle close aborts the
loop with a returned error, namely its query error. -/
theorem abortOf_retErr (env : DBEnv) (q : List Char)
    (hq : querySucceeds env q = false) (hp : panicsAt env q = false) :
    abortOf env q = .retErr (queryError env q) := by
  unfold querySucceeds at hq
  unfold panicsAt at hp
  unfold queryError abortOf
  rcases hpr : env.prepare q with _ | err
  · simp
  · rw [hpr] at hq hp
    by_cases h95 : isErr1295 err = true
    · rcases hd : env.execDirect q with _ | e2
      · rw [hd] at hq
        simp [h95] at hq
      · rw [hd] at hp
        simp [h95] at hp
    · simp [h95]

/-- The executor's outcome does not depend on the rollback oracle: the
deferred rollback's error is discarded, never escalated. -/
theorem executor_rollback_irrel (env : DBEnv) (re : Option GoErr)
    (stmts : List (List Char)) (qm : List (List Char × List Char)) :
    executePreparedStatementsWithMap { env with rollbackErr := re } stmts qm =
      executePreparedStatementsWithMap env stmts qm := by
  simp only [executePreparedStatementsWithMap]
  rw [runPrepared_congr { env with rollbackErr := re } env _ rfl rfl rfl]

/-- Commit never occurs among control events around a loop trace free of
commit events. -/
theorem commit_not_mem_wrap {evs : List Event} (h : Event.commit ∉ evs) :
    Event.commit ∉ [Event.lock, .connect, .beginTx] ++ evs ++ [.rollback, .unlock] := by
  intro hm
  simp only [List.mem_append, List.mem_cons] at hm
  rcases hm with (h1 | h1) | h1
  · simp at h1
  · exact h h1
  · simp at h1

/-- C2 (amended): with the connection and begin succeeding, the batch
executor commits exactly when every rendered statement succeeds and the
commit call succeeds, and returns ok exactly when it commits; when the
first failing statement fails in any way other than the 1295-fallback
direct-execution failure (which panics instead, see C1), the executor
returns that statement's error without committing; the deferred rollback
call is present on every path after begin; and the outcome never depends
on the rollback oracle, so a rollback failure is never escalated. -/
theorem c2_batch_atomicity (env : DBEnv) (stmts : List (List Char))
    (qm : List (List Char × List Char))
    (hconn : env.connErr = none) (hbegin : env.beginErr = none) :
    ((executePreparedStatementsWithMap env stmts qm).1 = .ok () ↔
      Event.commit ∈ (executePreparedStatementsWithMap env stmts qm).2) ∧
    (Event.commit ∈ (executePreparedStatementsWithMap env stmts qm).2 ↔
      ((∀ q ∈ renderedQueries stmts qm, querySucceeds env q = true) ∧
        env.commitErr = none)) ∧
    (∀ pre q rest, renderedQueries stmts qm = pre ++ q :: rest →
      (∀ x ∈ pre, querySucceeds env x = true) → querySucceeds env q = false →
      panicsAt env q = false →
      (executePreparedStatementsWithMap env stmts qm).1 = .err (queryError env q) ∧
        Event.commit ∉ (executePreparedStatementsWithMap env stmts qm).2) ∧
    Event.rollback ∈ (executePreparedStatementsWithMap env stmts qm).2 ∧
    (∀ re, executePreparedStatementsWithMap { env with rollbackErr := re } stmts qm =
      executePreparedStatementsWithMap env stmts qm) := by
  refine ⟨?_, ?_, ?_, ?_, fun re => executor_rollback_irrel env re stmts qm⟩
  · rcases hab : (runPrepared env (renderedQueries stmts qm)).2 with _ | ab
    · have hall := (runPrepared_none_iff env _).mp hab
      rcases hcommit : env.commitErr with _ | e
      · rw [executor_all_ok env stmts qm hconn hbegin hall hcommit]
        simp
      · rw [executor_commit_fail env stmts qm e hconn hbegin hall hcommit]
        constructor
        · intro h
          simp at h
        · intro hm
          exfalso
          refine commit_not_mem_wrap ?_ hm
          intro hmm
          obtain ⟨x, _, hx⟩ := List.mem_map.mp hmm
          exact Event.noConfusion hx
    · rcases ab with e | e
      · rw [executor_abort_ret env stmts qm e hconn hbegin hab]
        constructor
        · intro h
          simp at h
        · intro hm
          exact absurd hm (commit_not_mem_wrap (commit_not_mem_runPrepared env _))
      · rw [executor_abort_panic env stmts qm e hconn hbegin hab]
        constructor
        · intro h
          simp at h
        · intro hm
          exact absurd hm (commit_not_mem_wrap (commit_not_mem_runPrepared env _))
  · rcases hab : (runPrepared env (renderedQueries stmts qm)).2 with _ | ab
    · have hall := (runPrepared_none_iff env _).mp hab
      rcases hcommit : env.commitErr with _ | e
      · rw [executor_all_ok env stmts qm hconn hbegin hall hcommit]
        simp
        exact hall
      · rw [executor_commit_fail env stmts qm e hconn hbegin hall hcommit]
        constructor
        · intro hm
          exfalso
          refine commit_not_mem_wrap ?_ hm
          intro hmm
          obtain ⟨x, _, hx⟩ := List.mem_map.mp hmm
          exact Event.noConfusion hx
        · intro ⟨_, hc⟩
          exact absurd hc (by simp)
    · have habne : (runPrepared env (renderedQueries stmts qm)).2 ≠ none := by
        rw [hab]
        simp
      have hev : Event.commit ∉ (executePreparedStatementsWithMap env stmts qm).2 := by
        rcases ab with e | e
        · rw [executor_abort_ret env stmts qm e hconn hbegin hab]
          exact commit_not_mem_wrap (commit_not_mem_runPrepared env _)
        · rw [executor_abort_panic env stmts qm e hconn hbegin hab]
          exact commit_not_mem_wrap (commit_not_mem_runPrepared env _)
      constructor
      · intro hm
        exact absurd hm hev
      · intro ⟨hall, _⟩
        exact absurd ((runPrepared_none_iff env _).mpr hall) habne
  · intro pre q rest hsplit hpre hq hp
    have hab : (runPrepared env (renderedQueries stmts qm)).2 =
        some (.retErr (queryError env q)) := by
      rw [hsplit, runPrepared_first_fail env pre q rest hpre hq, abortOf_retErr env q hq hp]
    rw [executor_abort_ret env stmts qm (queryError env q) hconn hbegin hab]
    exact ⟨rfl, commit_not_mem_wrap (commit_not_mem_runPrepared env _)⟩
  · rcases hab : (runPrepared env (renderedQueries stmts qm)).2 with _ | ab
    · have hall := (runPrepared_none_iff env _).mp hab
      rcases hcommit : env.commitErr with _ | e
      · rw [executor_all_ok env stmts qm hconn hbegin hall hcommit]
        simp
      · rw [executor_commit_fail env stmts qm e hconn hbegin hall hcommit]
        simp
    · rcases ab with e | e
      · rw [executor_abort_ret env stmts qm e hconn hbegin hab]
        simp
      · rw [executor_abort_panic env stmts qm e hconn hbegin hab]
        simp

/-- Counterexample to C2 as stated: in an environment where preparation
fails with MySQL error 1295 and the direct execution fails, a statement's
execution failure does not produce the failing statement's error — the
executor ends in the nil-handle panic instead. -/
theorem c2_batch_atomicity_counterexample :
    (executePreparedStatementsWithMap env1295 [("GRANT ALL ON *.* TO 'y'").toList] []).1 =
      .panicNilDeref ∧
    (executePreparedStatementsWithMap env1295 [("GRANT ALL ON *.* TO 'y'").toList] []).1 ≠
      .err (queryError env1295 (("GRANT ALL ON *.* TO 'y'").toList)) := by
  exact ⟨by decide, by decide⟩

/-- Witness for C2 at a concrete batch: a succeeding batch commits, and a
batch whose second statement fails on the prepared path returns that
error without committing. -/
theorem c2_batch_atomicity_witness :
    (Event.commit ∈ (executePreparedStatementsWithMap envAllOk [("SELECT 1").toList] []).2 ↔
      ((∀ q ∈ renderedQueries [("SELECT 1").toList] [], querySucceeds envAllOk q = true) ∧
        envAllOk.commitErr = none)) ∧
    ((executePreparedStatementsWithMap
        { envAllOk with stmtExec := fun _ => some (.errStr ("denied").toList) }
        [("SELECT 1").toList] []).1 =
      .err (queryError
        { envAllOk with stmtExec := fun _ => some (.errStr ("denied").toList) }
        (("SELECT 1").toList)) ∧
      Event.commit ∉ (executePreparedStatementsWithMap
        { envAllOk with stmtExec := fun _ => some (.errStr ("denied").toList) }
        [("SELECT 1").toList] []).2) := by
  constructor
  · exact (c2_batch_atomicity envAllOk [("SELECT 1").toList] [] rfl rfl).2.1
  · exact (c2_batch_atomicity
      { envAllOk with stmtExec := fun _ => some (.errStr ("denied").toList) }
      [("SELECT 1").toList] [] rfl rfl).2.2.1 [] (("SELECT 1").toList) []
      (by decide) (by decide) (by decide) (by decide)

/-- Bracketing from an explicit middle segment. -/
theorem bracketed_of_mid (evs mid : List Event)
    (heq : evs = (Event.lock :: mid) ++ [Event.unlock])
    (hl : Event.lock ∉ mid) (hu : Event.unlock ∉ mid) : Bracketed evs :=
  Or.inr ⟨mid, heq, hl, hu⟩

/-- The lock and unlock events do not occur between connect/begin, a run
of statement executions, and a trailing control segment. -/
theorem lock_unlock_not_mem_mid (X t1 : List Event)
    (hX : ∀ e ∈ X, ∃ q, e = Event.execStmt q)
    (ht1 : Event.lock ∉ t1) (ht2 : Event.unlock ∉ t1) :
    Event.lock ∉ [Event.connect, Event.beginTx] ++ X ++ t1 ∧
    Event.unlock ∉ [Event.connect, Event.beginTx] ++ X ++ t1 := by
  constructor
  · intro hm
    rcases List.mem_append.mp hm with h | h
    · rcases List.mem_append.mp h with h2 | h2
      · simp at h2
      · obtain ⟨q, hq⟩ := hX _ h2
        exact Event.noConfusion hq
    · exact ht1 h
  · intro hm
    rcases List.mem_append.mp hm with h | h
    · rcases List.mem_append.mp h with h2 | h2
      · simp at h2
      · obtain ⟨q, hq⟩ := hX _ h2
        exact Event.noConfusion hq
    · exact ht2 h

/-- Every batch-executor trace is bracketed by the instance lock: the
lock is taken first, before the connection request, and released last,
after commit or the deferred rollback. -/
theorem executor_bracketed (env : DBEnv) (stmts : List (List Char))
    (qm : List (List Char × List Char)) :
    Bracketed (executePreparedStatementsWithMap env stmts qm).2 := by
  rcases hconn : env.connErr with _ | e
  · rcases hbegin : env.beginErr with _ | e
    · rcases hab : (runPrepared env (renderedQueries stmts qm)).2 with _ | ab
      · rcases hcommit : env.commitErr with _ | e
        · rw [executor_all_ok env stmts qm hconn hbegin
            ((runPrepared_none_iff env _).mp hab) hcommit]
          have hmem := lock_unlock_not_mem_mid
            ((renderedQueries stmts qm).map Event.execStmt) [Event.commit, Event.rollback]
            (fun e he => by
              obtain ⟨x, _, hx⟩ := List.mem_map.mp he
              exact ⟨x, hx.symm⟩)
            (by simp) (by simp)
          exact bracketed_of_mid _
            ([Event.connect, Event.beginTx] ++
              (renderedQueries stmts qm).map Event.execStmt ++ [Event.commit, Event.rollback])
            (by simp) hmem.1 hmem.2
        · rw [executor_commit_fail env stmts qm e hconn hbegin
            ((runPrepared_none_iff env _).mp hab) hcommit]
          have hmem := lock_unlock_not_mem_mid
            ((renderedQueries stmts qm).map Event.execStmt) [Event.rollback]
            (fun e he => by
              obtain ⟨x, _, hx⟩ := List.mem_map.mp he
              exact ⟨x, hx.symm⟩)
            (by simp) (by simp)
          exact bracketed_of_mid _
            ([Event.connect, Event.beginTx] ++
              (renderedQueries stmts qm).map Event.execStmt ++ [Event.rollback])
            (by simp) hmem.1 hmem.2
      · have hmem := lock_unlock_not_mem_mid
          (runPrepared env (renderedQueries stmts qm)).1 [Event.rollback]
          (runPrepared_mem_exec env _) (by simp) (by simp)
        rcases ab with e | e
        · rw [executor_abort_ret env stmts qm e hconn hbegin hab]
          exact bracketed_of_mid _
            ([Event.connect, Event.beginTx] ++
              (runPrepared env (renderedQueries stmts qm)).1 ++ [Event.rollback])
            (by simp) hmem.1 hmem.2
        · rw [executor_abort_panic env stmts qm e hconn hbegin hab]
          exact bracketed_of_mid _
            ([Event.connect, Event.beginTx] ++
              (runPrepared env (renderedQueries stmts qm)).1 ++ [Event.rollback])
            (by simp) hmem.1 hmem.2
    · simp only [executePreparedStatementsWithMap, hconn, hbegin]
      exact bracketed_of_mid _ [Event.connect, Event.beginTx] (by simp) (by simp) (by simp)
  · simp only [executePreparedStatementsWithMap, hconn]
    exact bracketed_of_mid _ [Event.connect] (by simp) (by simp) (by simp)

/-- Every `DeleteUser` trace is bracketed by the instance lock. -/
theorem DeleteUser_bracketed (env : DBEnv) (req : DeleteUserRequest) :
    Bracketed (DeleteUser env req).2 := by
  rcases hconn : env.connErr with _ | e
  · rcases hbegin : env.beginErr with _ | e
    · rcases hab : (runDirect env
        ((if req.statements.isEmpty then [defaultMysqlRevocationStmts]
          else req.statements).flatMap (fun s => renderRevocation s req.username))).2 with _ | e
      · rcases hcommit : env.commitErr with _ | e
        · simp only [DeleteUser, hconn, hbegin, hab, hcommit]
          have hmem := lock_unlock_not_mem_mid (runDirect env ((if req.statements.isEmpty then [defaultMysqlRevocationStmts]
              else req.statements).flatMap (fun s => renderRevocation s req.username))).1
            [Event.commit, Event.rollback] (runDirect_mem_exec env ((if req.statements.isEmpty then [defaultMysqlRevocationStmts]
              else req.statements).flatMap (fun s => renderRevocation s req.username))) (by simp) (by simp)
          exact bracketed_of_mid _
            ([Event.connect, Event.beginTx] ++ (runDirect env ((if req.statements.isEmpty then [defaultMysqlRevocationStmts]
              else req.statements).flatMap (fun s => renderRevocation s req.username))).1 ++
              [Event.commit, Event.rollback]) (by simp) hmem.1 hmem.2
        · simp only [DeleteUser, hconn, hbegin, hab, hcommit]
          have hmem := lock_unlock_not_mem_mid (runDirect env ((if req.statements.isEmpty then [defaultMysqlRevocationStmts]
              else req.statements).flatMap (fun s => renderRevocation s req.username))).1
            [Event.rollback] (runDirect_mem_exec env ((if req.statements.isEmpty then [defaultMysqlRevocationStmts]
              else req.statements).flatMap (fun s => renderRevocation s req.username))) (by simp) (by simp)
          exact bracketed_of_mid _
            ([Event.connect, Event.beginTx] ++ (runDirect env ((if req.statements.isEmpty then [defaultMysqlRevocationStmts]
              else req.statements).flatMap (fun s => renderRevocation s req.username))).1 ++ [Event.rollback])
            (by simp) hmem.1 hmem.2
      · simp only [DeleteUser, hconn, hbegin, hab]
        have hmem := lock_unlock_not_mem_mid (runDirect env ((if req.statements.isEmpty then [defaultMysqlRevocationStmts]
              else req.statements).flatMap (fun s => renderRevocation s req.username))).1
          [Event.rollback] (runDirect_mem_exec env ((if req.statements.isEmpty then [defaultMysqlRevocationStmts]
              else req.statements).flatMap (fun s => renderRevocation s req.username))) (by simp) (by simp)
        exact bracketed_of_mid _
          ([Event.connect, Event.beginTx] ++ (runDirect env ((if req.statements.isEmpty then [defaultMysqlRevocationStmts]
              else req.statements).flatMap (fun s => renderRevocation s req.username))).1 ++ [Event.rollback])
          (by simp) hmem.1 hmem.2
    · simp only [DeleteUser, hconn, hbegin]
      exact bracketed_of_mid _ [Event.connect, Event.beginTx] (by simp) (by simp) (by simp)
  · simp only [DeleteUser, hconn]
    exact bracketed_of_mid _ [Event.connect] (by simp) (by simp) (by simp)

/-- Every `changeUserPassword` trace is bracketed by the instance lock. -/
theorem changeUserPassword_bracketed (env : DBEnv) (u p : List Char)
    (rs : List (List Char)) : Bracketed (changeUserPassword env u p rs).2 := by
  rw [changeUserPassword]
  by_cases hv : (u.isEmpty || p.isEmpty) = true
  · rw [if_pos hv]
    exact Or.inl rfl
  · rw [if_neg hv]
    exact executor_bracketed env _ _

/-- Every `NewUser` trace is bracketed by the instance lock. -/
theorem NewUser_bracketed (m : MySQL) (env : DBEnv) (req : NewUserRequest) :
    Bracketed (NewUser m env req).2 := by
  rw [NewUser]
  by_cases hst : req.statements.isEmpty = true
  · rw [if_pos hst]
    exact Or.inl rfl
  · rw [if_neg hst]
    rcases hg : generateUsername m env req with e | u
    · exact Or.inl rfl
    · have hb := executor_bracketed env req.statements
        (newUserQueryMap u req.password (formatExpiration req.expiration))
      rcases hr : (executePreparedStatementsWithMap env req.statements
          (newUserQueryMap u req.password (formatExpiration req.expiration))).1 with a | e | _ <;>
        simpa [hr] using hb

/-- Every `UpdateUser` trace is bracketed by the instance lock. -/
theorem UpdateUser_bracketed (env : DBEnv) (req : UpdateUserRequest) :
    Bracketed (UpdateUser env req).2 := by
  rw [UpdateUser]
  by_cases hv : (req.password.isNone && req.expiration.isNone) = true
  · rw [if_pos hv]
    exact Or.inl rfl
  · rw [if_neg hv]
    rcases hp : req.password with _ | cp
    · exact Or.inl rfl
    · have hb := changeUserPassword_bracketed env req.username cp.newPassword cp.statements
      rcases hr : (changeUserPassword env req.username cp.newPassword cp.statements).1
          with a | e | _ <;>
        simpa [hr] using hb

/-- A boolean different from `t` is its negation. -/
theorem bool_other {t x : Bool} (h : ¬ x = t) : x = !t := by
  cases t <;> cases x <;> simp_all

/-- Projection step for the owning thread. -/
theorem projThread_cons_self (t : Bool) (e : Event) (rest : List (Bool × Event)) :
    projThread t ((t, e) :: rest) = e :: projThread t rest := by
  simp [projThread]

/-- Projection step for the other thread. -/
theorem projThread_cons_other {t t2 : Bool} (h : t2 ≠ t) (e : Event)
    (rest : List (Bool × Event)) :
    projThread t ((t2, e) :: rest) = projThread t rest := by
  simp [projThread, h]

/-- Mutex step for an event that is neither lock nor unlock. -/
theorem mutexRun_cons_other (o : Option Bool) (t : Bool) (e : Event)
    (rest : List (Bool × Event))
    (he1 : e ≠ Event.lock) (he2 : e ≠ Event.unlock) :
    mutexRun o ((t, e) :: rest) = mutexRun o rest := by
  cases e
  · exact absurd rfl he1
  · exact absurd rfl he2
  · rfl
  · rfl
  · rfl
  · rfl
  · rfl

/-- A lock step from the free state takes ownership. -/
theorem mutexRun_cons_lock_none (t : Bool) (rest : List (Bool × Event)) :
    mutexRun none ((t, Event.lock) :: rest) = mutexRun (some t) rest := rfl

/-- A lock step while the mutex is held is invalid. -/
theorem mutexRun_cons_lock_some (o t : Bool) (rest : List (Bool × Event)) :
    mutexRun (some o) ((t, Event.lock) :: rest) = false := rfl

/-- An unlock step by the owner frees the mutex. -/
theorem mutexRun_cons_unlock_self (t : Bool) (rest : List (Bool × Event)) :
    mutexRun (some t) ((t, Event.unlock) :: rest) = mutexRun none rest := by
  simp [mutexRun, mutexStep]

/-- While one thread holds the mutex and still has its middle segment and
unlock to emit, and the other thread's first event can only be a lock,
the schedule begins with an uninterrupted block of the owner's events,
ending with its unlock, after which the mutex is free again. -/
theorem mutex_owned_phase (tA : Bool) (sch : List (Bool × Event)) :
    ∀ mid : List Event,
      mutexRun (some tA) sch = true →
      projThread tA sch = mid ++ [Event.unlock] →
      Event.lock ∉ mid → Event.unlock ∉ mid →
      (projThread (!tA) sch = [] ∨ ∃ m2, projThread (!tA) sch = Event.lock :: m2) →
      ∃ x y, sch = x ++ y ∧ (∀ p ∈ x, p.1 = tA) ∧
        projThread (!tA) y = projThread (!tA) sch ∧
        projThread tA y = [] ∧ mutexRun none y = true := by
  induction sch with
  | nil =>
    intro mid _ hproj _ _ _
    exact absurd hproj (by simp [projThread])
  | cons pe rest ih =>
    obtain ⟨t, e⟩ := pe
    intro mid hrun hproj hl hu hB
    by_cases ht : t = tA
    · subst ht
      rw [projThread_cons_self] at hproj
      have htne : t ≠ !t := by cases t <;> simp
      cases mid with
      | nil =>
        rw [List.nil_append] at hproj
        injection hproj with he hrest
        subst he
        rw [mutexRun_cons_unlock_self] at hrun
        refine ⟨[(t, Event.unlock)], rest, rfl, by simp, ?_, hrest, hrun⟩
        rw [projThread_cons_other htne]
      | cons m mid' =>
        injection hproj with he hproj'
        subst he
        have hml : e ≠ Event.lock := by
          intro hh
          subst hh
          exact hl (List.mem_cons_self _ _)
        have hmu : e ≠ Event.unlock := by
          intro hh
          subst hh
          exact hu (List.mem_cons_self _ _)
        rw [mutexRun_cons_other (some t) t e rest hml hmu] at hrun
        have hB' : projThread (!t) rest = [] ∨
            ∃ m2, projThread (!t) rest = Event.lock :: m2 := by
          rw [projThread_cons_other htne] at hB
          exact hB
        obtain ⟨x, y, hxy, hx, hpy, hpA, hrun2⟩ := ih mid' hrun hproj'
          (fun hh => hl (List.mem_cons_of_mem e hh))
          (fun hh => hu (List.mem_cons_of_mem e hh)) hB'
        refine ⟨(t, e) :: x, y, by rw [hxy]; rfl, ?_, ?_, hpA, hrun2⟩
        · intro p hp
          rcases List.mem_cons.mp hp with h | h
          · subst h
            rfl
          · exact hx p h
        · rw [projThread_cons_other htne, ← hpy]
    · exfalso
      have ht2 : t = !tA := bool_other ht
      subst ht2
      rw [projThread_cons_self] at hB
      rcases hB with hB | ⟨m2, hB⟩
      · exact List.noConfusion hB
      · injection hB with he _
        subst he
        rw [mutexRun_cons_lock_some] at hrun
        simp at hrun

/-- A schedule in which one thread never appears consists of the other
thread's events only. -/
theorem all_other_of_proj_nil (t : Bool) (y : List (Bool × Event)) :
    projThread t y = [] → ∀ p ∈ y, p.1 = !t := by
  induction y with
  | nil =>
    intro _ p hp
    simp at hp
  | cons pe rest ih =>
    obtain ⟨t2, e⟩ := pe
    intro h p hp
    by_cases ht : t2 = t
    · subst ht
      rw [projThread_cons_self] at h
      exact List.noConfusion h
    · rw [projThread_cons_other ht] at h
      rcases List.mem_cons.mp hp with h1 | h1
      · subst h1
        exact bool_other ht
      · exact ih h p h1

/-- Mutual exclusion: a mutex-valid schedule whose two per-thread traces
are lock-bracketed splits into one thread's full block followed by the
other's — the two operations never interleave. -/
theorem mutex_mutual_exclusion (sch : List (Bool × Event))
    (hrun : mutexRun none sch = true)
    (h1 : Bracketed (projThread true sch)) (h2 : Bracketed (projThread false sch)) :
    Separated sch := by
  cases sch with
  | nil => exact ⟨[], [], rfl, Or.inl ⟨by simp, by simp⟩⟩
  | cons pe rest =>
    obtain ⟨t, e⟩ := pe
    have hbt : Bracketed (projThread t ((t, e) :: rest)) := by
      cases t
      · exact h2
      · exact h1
    rw [projThread_cons_self] at hbt
    rcases hbt with habs | ⟨mid, hmid, hl, hu⟩
    · exact absurd habs (by simp)
    · rw [List.cons_append] at hmid
      injection hmid with he hproj
      subst he
      rw [mutexRun_cons_lock_none] at hrun
      have htne : t ≠ !t := by cases t <;> simp
      have hbother : Bracketed (projThread (!t) ((t, Event.lock) :: rest)) := by
        cases t
        · exact h1
        · exact h2
      rw [projThread_cons_other htne] at hbother
      have hB : projThread (!t) rest = [] ∨
          ∃ m2, projThread (!t) rest = Event.lock :: m2 := by
        rcases hbother with hh | ⟨m2, hm2, _, _⟩
        · exact Or.inl hh
        · right
          exact ⟨m2 ++ [Event.unlock], by rw [hm2, List.cons_append]⟩
      obtain ⟨x, y, hxy, hx, _, hpA, _⟩ := mutex_owned_phase t rest mid hrun hproj hl hu hB
      have hy := all_other_of_proj_nil t y hpA
      refine ⟨(t, Event.lock) :: x, y, by rw [hxy]; rfl, ?_⟩
      cases t
      · right
        constructor
        · intro p hp
          rcases List.mem_cons.mp hp with h | h
          · subst h
            rfl
          · exact hx p h
        · intro p hp
          simpa using hy p hp
      · left
        constructor
        · intro p hp
          rcases List.mem_cons.mp hp with h | h
          · subst h
            rfl
          · exact hx p h
        · intro p hp
          simpa using hy p hp

/-- C9: every database-touching coordinator operation's trace is
bracketed by the instance lock — the lock is acquired first, before the
connection request, and released last, after commit or the deferred
rollback — and therefore, under the mutex semantics, a schedule of two
such operations on one instance never interleaves them: one operation's
whole lock-to-unlock block, transactions included, runs before the
other's. -/
theorem c9_lock_discipline (m : MySQL) (env env2 : DBEnv)
    (stmts : List (List Char)) (qm : List (List Char × List Char))
    (req : NewUserRequest) (u p : List Char) (rs : List (List Char))
    (ureq : UpdateUserRequest) (dreq : DeleteUserRequest) :
    Bracketed (executePreparedStatementsWithMap env stmts qm).2 ∧
    Bracketed (NewUser m env req).2 ∧
    Bracketed (changeUserPassword env u p rs).2 ∧
    Bracketed (UpdateUser env ureq).2 ∧
    Bracketed (DeleteUser env dreq).2 ∧
    (∀ sch : List (Bool × Event), mutexRun none sch = true →
      projThread true sch = (DeleteUser env dreq).2 →
      projThread false sch = (executePreparedStatementsWithMap env2 stmts qm).2 →
      Separated sch) := by
  refine ⟨executor_bracketed env stmts qm, NewUser_bracketed m env req,
    changeUserPassword_bracketed env u p rs, UpdateUser_bracketed env ureq,
    DeleteUser_bracketed env dreq, ?_⟩
  intro sch hrun hpt hpf
  refine mutex_mutual_exclusion sch hrun ?_ ?_
  · rw [hpt]
    exact DeleteUser_bracketed env dreq
  · rw [hpf]
    exact executor_bracketed env2 stmts qm

/-- Witness for C9 at a concrete delete and a concrete batch execution
scheduled one after the other. -/
theorem c9_lock_discipline_witness :
    Bracketed (DeleteUser envAllOk ⟨("bob").toList, [("   ").toList]⟩).2 ∧
    Separated [(true, Event.lock), (true, .connect), (true, .beginTx), (true, .commit),
      (true, .rollback), (true, .unlock), (false, .lock), (false, .connect),
      (false, .beginTx), (false, .execStmt (("SELECT 1").toList)), (false, .commit),
      (false, .rollback), (false, .unlock)] := by
  have h := c9_lock_discipline (MySQL.mkNew false) envAllOk envAllOk
    [("SELECT 1").toList] []
    ⟨⟨("d").toList, ("r").toList⟩, [("SELECT 1").toList], ("pw").toList,
      ⟨2024, 1, 1, 0, 0, 0, false, 0, 0⟩⟩
    ("bob").toList ("pw").toList [] ⟨("bob").toList, none, none⟩
    ⟨("bob").toList, [("   ").toList]⟩
  exact ⟨h.2.2.2.2.1, h.2.2.2.2.2 _ (by decide) (by decide) (by decide)⟩
